import Mathlib

/-!
shortedfunctions: ingestion routine, time-series fetch and AWS helpers.

A shallow embedding of

* `internal/handlerhelper/dynamoingestor/helper.go` (`IngestRoutine`, `putRecord`),
* `internal/timeseriesutil/timeseriesutil.go` (`FetchTimeSeries`),
* `pkg/awsutils/awsutils.go` (`WithDynamoDBGetLatest`, `PutKinesisRecords`,
  `FetchJSONFileFromS3`).

Collaborator calls are recorded as an explicit event trace; channels are lists
with an explicit capacity; the unbounded outer loop of `IngestRoutine` is run
with fuel, and the result says whether the routine returned, panicked or is
still running when the fuel is spent.
-/

namespace Shorted

/-! ## Go standard library pieces used by the sources -/

/-- Go `time.Time`, reduced to what `Format` and `Unix` read: the instant in
Unix seconds and the offset, in seconds east of UTC, of the location the value
carries (`time.Now()` carries the process's local zone). -/
structure Time where
  unix : Int
  offset : Int
deriving DecidableEq, Repr

/-- Go `Time.UTC`: the same instant, location set to UTC. -/
def Time.UTC (t : Time) : Time := { t with offset := 0 }

/-- Go `Time.Unix`: the instant, whatever the location. -/
def Time.Unix (t : Time) : Int := t.unix

/-- Decimal digits of a natural number, most significant first (`fuel` bounds
the number of digits). -/
def natDigits : Nat → Nat → List Char
  | 0, _ => []
  | fuel + 1, n =>
    if n < 10 then [Char.ofNat (48 + n)]
    else natDigits fuel (n / 10) ++ [Char.ofNat (48 + n % 10)]

/-- Go `time.appendInt`: a minus sign for a negative value, then the decimal
digits left-padded with zeros to `width`. -/
def appendInt (x : Int) (width : Nat) : String :=
  let ds := natDigits (x.natAbs + 1) x.natAbs
  let body := List.replicate (width - ds.length) '0' ++ ds
  String.mk (if x < 0 then '-' :: body else body)

/-- Civil date (year, month, day) of a day count since 1970-01-01 in the
proleptic Gregorian calendar, as Go's `Time.Date` computes it. -/
def civilFromDays (days : Int) : Int × Int × Int :=
  let z := days + 719468
  let era := z / 146097
  let doe := z - era * 146097
  let yoe := (doe - doe / 1460 + doe / 36524 - doe / 146096) / 365
  let y := yoe + era * 400
  let doy := doe - (365 * yoe + yoe / 4 - yoe / 100)
  let mp := (5 * doy + 2) / 153
  let d := doy - (153 * mp + 2) / 5 + 1
  let m := if mp < 10 then mp + 3 else mp - 9
  (if m ≤ 2 then y + 1 else y, m, d)

/-- Go `t.Format("20060102")`: four-digit year, two-digit month, two-digit day
of the wall clock of `t` in the location `t` carries. -/
def Time.Format20060102 (t : Time) : String :=
  let ymd := civilFromDays ((t.unix + t.offset) / 86400)
  appendInt ymd.1 4 ++ appendInt ymd.2.1 2 ++ appendInt ymd.2.2 2

/-- Value of a run of ASCII decimal digits; `none` when a character is not a
digit. -/
def digitsValue : List Char → Nat → Option Nat
  | [], acc => some acc
  | c :: cs, acc =>
    if c.isDigit then digitsValue cs (acc * 10 + (c.toNat - 48)) else none

/-- Go `strconv.Atoi` on a 64-bit platform: the value and the error. A syntax
error gives value 0; a value out of the `int` range gives the nearest bound
together with a range error. -/
def Atoi (s : String) : Int × Option String :=
  let body := match s.data with
    | '-' :: cs => cs
    | '+' :: cs => cs
    | cs => cs
  let neg := s.data.head? = some '-'
  if body = [] then (0, some "invalid syntax")
  else match digitsValue body 0 with
    | none => (0, some "invalid syntax")
    | some n =>
      if neg then
        if n ≤ 2 ^ 63 then (-(n : Int), none) else (-(2 ^ 63 : Int), some "value out of range")
      else
        if n < 2 ^ 63 then ((n : Int), none) else ((2 ^ 63 - 1 : Int), some "value out of range")

/-! ## Records, attributes and events -/

/-- Modelled from the spec: the type `sharedata.CombinedShortJSON` is declared
outside the files at hand; the spec gives its fields as Name, Code, Shorts,
Total, Percent, Industry, the middle three being numbers. The number type is
left as the parameter `ν`. -/
structure CombinedShortJSON (ν : Type) where
  Name : String
  Code : String
  Shorts : ν
  Total : ν
  Percent : ν
  Industry : String
deriving DecidableEq, Repr

/-- Modelled from the spec: `sharedata.CombinedResultJSON`, the batch payload
with its one field `Result`. -/
structure CombinedResultJSON (ν : Type) where
  Result : List (CombinedShortJSON ν)
deriving DecidableEq, Repr

/-- A value stored in the `map[string]interface{}` handed to
`PutDynamoDBItems`. -/
inductive AttrValue (ν : Type) where
  | str (s : String)
  | num (x : ν)
  | int (n : Int)
deriving DecidableEq, Repr

/-- The attribute map, as the list of its assignments in program order (the
keys assigned by `putRecord` are pairwise distinct). -/
abbrev Attributes (ν : Type) := List (String × AttrValue ν)

/-- Collaborator calls and scheduling steps of the ingestion code. -/
inductive Event (ν : Type) where
  /-- Call of `d.Clients.FetchJSONFileFromS3(bucket, key, _)`. -/
  | fetchJSON (bucket key : String)
  /-- Call of `ingestionutils.UpdateDynamoWriteUnits(d.Clients, table, units)`. -/
  | updateWriteUnits (table : String) (units : Int)
  /-- Statement `go d.putRecord(data, date)`: a write task is scheduled. -/
  | go (data : CombinedShortJSON ν) (date : Int)
  /-- Receive `<-limiter`: wait for the next tick of the 1 s ticker. -/
  | tick
  /-- Call of `d.Clients.PutDynamoDBItems(table, attributes)`. -/
  | putItems (table : String) (attrs : Attributes ν)
  /-- Call of `log.Info(fn, msg)`. -/
  | log (fn msg : String)
deriving DecidableEq, Repr

/-- How a run of the routine ends: it returned, it was ended by a panic or a
fatal error of the runtime, or it is still inside its loop when the fuel is
spent. -/
inductive Outcome where
  | returned
  | panicked
  | running
deriving DecidableEq, Repr

/-- The methods of the interface `awsutil.AwsUtiler` the ingestion code calls.
A Go `(interface{}, error)` result is a pair: the dynamic value (`none` when it
is nil or not a `CombinedResultJSON`) and the error (`none` for nil). -/
structure AwsUtiler (ν : Type) where
  FetchJSONFileFromS3 : String → String → Option (CombinedResultJSON ν) × Option String
  PutDynamoDBItems : String → Attributes ν → Option String

/-- The struct `Dynamoingestor`. -/
structure Dynamoingestor (ν : Type) where
  Clients : AwsUtiler ν

/-- What the routine reads from outside the struct: the two readings of
`time.Now()` (line 23 and line 48 of helper.go),
`ingestionutils.UpdateDynamoWriteUnits` applied to `d.Clients`, which is
declared outside the files at hand and taken as given, and `chanMemory`, the
largest number of record pointers the process has the memory to buffer in one
channel. -/
structure World where
  nowFetch : Time
  nowStamp : Time
  UpdateDynamoWriteUnits : String → Int → Int × Int
  chanMemory : Nat

/-- Go `make(chan *T, size)` on a 64-bit platform: the capacity of the channel
made, or `none` when the run ends there. The runtime (`makechan`) panics with
"makechan: size out of range" when the size is negative or when the buffer,
8 bytes for each pointer, exceeds `maxAlloc - hchanSize = 2^48 - 96` bytes; a
buffer the process has no memory for ends the run with a fatal error. -/
def makechan (chanMemory : Nat) (size : Int) : Option Nat :=
  if size < 0 ∨ 8 * size > 2 ^ 48 - 96 ∨ size > chanMemory then none else some size.toNat

/-! ## helper.go -/

/-- The attribute map built by `putRecord` (lines 73-80). -/
def putRecordAttributes {ν : Type} (data : CombinedShortJSON ν) (date : Int) : Attributes ν :=
  [("Name", .str data.Name), ("Code", .str data.Code), ("Shorts", .num data.Shorts),
   ("Total", .num data.Total), ("Percent", .num data.Percent),
   ("Industry", .str data.Industry), ("Date", .int date)]

/-- The method `putRecord`: the trace of one write task. -/
def putRecord {ν : Type} (d : Dynamoingestor ν) (data : CombinedShortJSON ν) (date : Int) :
    List (Event ν) :=
  let attributes := putRecordAttributes data date
  match d.Clients.PutDynamoDBItems "testShorts" attributes with
  | some err => [.putItems "testShorts" attributes, .log "putRecord" err]
  | none => [.putItems "testShorts" attributes]

/-- Lines 57-59: move records from `putRequest` to `burstChannel` while the
burst channel is below its capacity and records are left. Returns the two
channels. -/
def fillBurst {ν : Type} (cap : Nat) :
    List (CombinedShortJSON ν) → List (CombinedShortJSON ν) →
      List (CombinedShortJSON ν) × List (CombinedShortJSON ν)
  | [], burstChannel => ([], burstChannel)
  | r :: putRequest, burstChannel =>
    if burstChannel.length < cap then fillBurst cap putRequest (burstChannel ++ [r])
    else (r :: putRequest, burstChannel)

/-- Lines 61-63: schedule one write task for each record of the burst channel,
in channel order, until the channel is empty. Returns the events and the
channel. -/
def dispatchBurst {ν : Type} (timeVal : Int) :
    List (CombinedShortJSON ν) → List (Event ν) × List (CombinedShortJSON ν)
  | [] => ([], [])
  | r :: burstChannel =>
    let rest := dispatchBurst timeVal burstChannel
    (Event.go r timeVal :: rest.1, rest.2)

/-- Lines 55-65: the drain loop, at most `fuel` iterations. -/
def drainLoop {ν : Type} (cap : Nat) (timeVal : Int) :
    Nat → List (CombinedShortJSON ν) → List (CombinedShortJSON ν) → List (Event ν) × Outcome
  | 0, putRequest, _ =>
    if putRequest.length > 0 then ([], .running) else ([], .returned)
  | fuel + 1, putRequest, burstChannel =>
    if putRequest.length > 0 then
      let filled := fillBurst cap putRequest burstChannel
      let sent := dispatchBurst timeVal filled.2
      let rest := drainLoop cap timeVal fuel filled.1 sent.2
      (sent.1 ++ [Event.tick] ++ rest.1, rest.2)
    else ([], .returned)

/-- Lines 23-25: the object key fetched, built from the local wall clock of the
first `time.Now()` reading. -/
def ingestKey (w : World) : String :=
  let currentTime := w.nowFetch
  let currentDay := currentTime.Format20060102
  "testShortedData/" ++ currentDay ++ ".json"

/-- Line 48: the date stamp, `strconv.Atoi(time.Now().UTC().Format("20060102"))`
with its error. -/
def ingestTimeVal (w : World) : Int × Option String :=
  Atoi w.nowStamp.UTC.Format20060102

/-- The trace and outcome of a run. -/
structure Run (ν : Type) where
  events : List (Event ν)
  outcome : Outcome
deriving DecidableEq, Repr

/-- The method `IngestRoutine` (lines 22-70), its drain loop run for at most
`fuel` iterations. The channel `putRequest` is made with the size of the batch
(line 36) and filled with it (lines 37-40); the channel `burstChannel` is made
with `writeThroughput` (line 43); either `make` can end the run. -/
def IngestRoutine {ν : Type} (w : World) (d : Dynamoingestor ν) (tableName : String)
    (fuel : Nat) : Run ν :=
  let key := ingestKey w
  let fetched := d.Clients.FetchJSONFileFromS3 "shortedappjmk" key
  let ev₀ : List (Event ν) := [.fetchJSON "shortedappjmk" key]
  match fetched.2 with
  | some _ => ⟨ev₀ ++ [.log "IngestRoutine" "unable to fetch data from s3"], .returned⟩
  | none =>
    let writeThroughput := (w.UpdateDynamoWriteUnits tableName 25).2
    let ev₁ := ev₀ ++ [.updateWriteUnits tableName 25]
    match fetched.1 with
    | none => ⟨ev₁, .panicked⟩
    | some data =>
      match makechan w.chanMemory data.Result.length with
      | none => ⟨ev₁, .panicked⟩
      | some _ =>
        let putRequest := data.Result
        match makechan w.chanMemory writeThroughput with
        | none => ⟨ev₁, .panicked⟩
        | some burstCap =>
          let parsed := ingestTimeVal w
          let timeVal := parsed.1
          let ev₂ := match parsed.2 with
            | some _ => ev₁ ++ [.log "IngestRoutine" "failed to create int from date"]
            | none => ev₁
          let loop := drainLoop burstCap timeVal fuel putRequest []
          match loop.2 with
          | .returned => ⟨ev₂ ++ loop.1 ++ [.updateWriteUnits tableName 5], .returned⟩
          | o => ⟨ev₂ ++ loop.1, o⟩

/-! ## awsutils.go -/

/-- Go `[]byte`. -/
abbrev Bytes := List UInt8

/-- The result of `client.s3DownloadClient.Download(buf, _)`: the count `n` it
returns, the content of the buffer `buf` afterwards, and the error. -/
structure Downloaded where
  n : Int
  buf : Bytes
  err : Option String

/-- Go `fmt.Sprintf("%v", n)` for an integer: its decimal digits, with a minus
sign when negative. -/
def sprintInt (n : Int) : String := appendInt n 0

/-- The method `ClientsStruct.FetchJSONFileFromS3` (lines 167-192).
`Download` is `client.s3DownloadClient.Download` with a fresh buffer; `f` is
the unmarshal function. Returns the Go result pair and the log calls made. -/
def FetchJSONFileFromS3 {ρ : Type} (Download : String → String → Downloaded)
    (bucketName key : String) (f : Bytes → Option ρ × Option String) :
    (Option ρ × Option String) × List (String × String) :=
  let got := Download bucketName key
  match got.err with
  | some err =>
    ((none, some err),
      [("FetchJSONFileFromS3",
        "downloads file " ++ bucketName ++ "/" ++ key ++ ", size " ++ sprintInt got.n ++
          " Bytes")])
  | none =>
    let res := f got.buf
    match res.2 with
    | some err => ((res.1, some err), [("FetchJSONFileFromS3", "failed to unmarshal the s3 object")])
    | none => ((res.1, none), [])

/-- Collaborator calls of `WithDynamoDBGetLatest`. -/
inductive HttpEvent where
  /-- Call of `client.callEndpoint(url)`, that is `http.Head(url)`. -/
  | head (url : String)
  /-- Call of `client.FetchDynamoDBLastModified(table, key)`. -/
  | fetchLastModified (table key : String)
  /-- Call of `client.PutDynamoDBLastModified(table, key, time)`. -/
  | putLastModified (table key time : String)
  /-- Call of `http.Get(url)`. -/
  | get (url : String)
  /-- Call of `log.Info(fn, msg)`. -/
  | log (fn msg : String)
deriving DecidableEq, Repr

/-- What `WithDynamoDBGetLatest` calls: the HTTP client, the `time` package and
the two DynamoDB methods of the client. `ρ` is `*http.Response`. A Go
`(value, error)` result is an `Except`. -/
structure LatestDeps (ρ : Type) where
  Head : String → Except String ρ
  Get : String → Option ρ × Option String
  LastModifiedHeader : ρ → String
  ParseRFC1123 : String → Except String Time
  ParseRFC3339 : String → Except String Time
  FormatRFC3339 : Time → String
  FetchDynamoDBLastModified : String → String → Except String String
  PutDynamoDBLastModified : String → String → String → Option String

/-- The result of `WithDynamoDBGetLatest`: the Go result pair and the trace. -/
structure LatestRun (ρ : Type) where
  resp : Option ρ
  err : Option String
  events : List HttpEvent

/-- The method `ClientsStruct.WithDynamoDBGetLatest` (lines 57-93). -/
def WithDynamoDBGetLatest {ρ : Type} (c : LatestDeps ρ) (url key : String) : LatestRun ρ :=
  let ev₀ := [HttpEvent.head url]
  match c.Head url with
  | .error err =>
    ⟨none, some err,
      ev₀ ++ [.log "WithDynamoDBGetLatest" "unable to get information from target url"]⟩
  | .ok resp =>
    let lastModified := c.LastModifiedHeader resp
    match c.ParseRFC1123 lastModified with
    | .error err =>
      ⟨none, some err, ev₀ ++ [.log "WithDynamoDBGetLatest" "unable to parse last modified data"]⟩
    | .ok lastModifiedTime =>
      let ev₁ := ev₀ ++ [HttpEvent.fetchLastModified "lastUpdate" key]
      match c.FetchDynamoDBLastModified "lastUpdate" key with
      | .error err =>
        ⟨none, some err,
          ev₁ ++ [.log "WithDynamoDBGetLatest" "unable to get information from target url"]⟩
      | .ok dynamoLastModified =>
        match c.ParseRFC3339 dynamoLastModified with
        | .error err =>
          ⟨none, some err,
            ev₁ ++ [.log "WithDynamoDBGetLatest" "unable to parse dynamo last modified date"]⟩
        | .ok dynamoLastModifiedTime =>
          if lastModifiedTime.UTC.Unix < dynamoLastModifiedTime.UTC.Unix then
            let updateTime := c.FormatRFC3339 lastModifiedTime
            let got := c.Get url
            ⟨got.1, got.2, ev₁ ++ [.putLastModified "lastUpdate" key updateTime, .get url]⟩
          else ⟨none, none, ev₁⟩

/-- The struct `kinesis.PutRecordsRequestEntry`, the two fields the code sets.
`PartitionKey` is a `*string`: `none` is nil, `some s` points at a string `s`
that the function never changes. -/
structure PutRecordsRequestEntry where
  Data : Bytes
  PartitionKey : Option String
deriving DecidableEq, Repr

/-- The addressable entry variables of `PutKinesisRecords`: its one local
`streamRecord`, declared before the loop (line 138). -/
inductive EntryAddr where
  | streamRecord
deriving DecidableEq, Repr

/-- The struct `kinesis.PutRecordsInput` as the callee reads it: every pointer
of `Records` dereferenced at the time of the call. -/
structure PutRecordsInput where
  Records : List PutRecordsRequestEntry
  StreamName : String
deriving DecidableEq, Repr

/-- How `PutKinesisRecords` ends: an index-out-of-range panic, or a return with
its error, together with the request sent to `PutRecords` when one was sent. -/
inductive KinesisResult where
  | panicked
  | returned (err : Option String) (sent : Option PutRecordsInput)
deriving DecidableEq, Repr

/-- Lines 141-152: the loop over `blobData` from index `i` on. The state is the
value of the variable `streamRecord` and the list of pointers `recordsList`.
Returns `none` on the panic of `partitionKeys[i]` out of range, otherwise the
marshal error (if the loop returned early) or the final state. -/
def kinesisLoop {α : Type} (Marshal : α → Except String Bytes) (partitionKeys : List String) :
    Nat → List α → PutRecordsRequestEntry → List EntryAddr →
      Option (Except String (PutRecordsRequestEntry × List EntryAddr))
  | _, [], streamRecord, recordsList => some (.ok (streamRecord, recordsList))
  | i, record :: rest, _, recordsList =>
    match Marshal record with
    | .error err => some (.error err)
    | .ok jsonRecord =>
      match partitionKeys[i]? with
      | none => none
      | some pk =>
        let streamRecord : PutRecordsRequestEntry := { Data := jsonRecord, PartitionKey := some pk }
        kinesisLoop Marshal partitionKeys (i + 1) rest streamRecord
          (recordsList ++ [EntryAddr.streamRecord])

/-- The method `ClientsStruct.PutKinesisRecords` (lines 137-160). `Marshal` is
`json.Marshal`, `PutRecords` is `client.kinesisClient.PutRecords` reduced to
its error. -/
def PutKinesisRecords {α : Type} (Marshal : α → Except String Bytes)
    (PutRecords : PutRecordsInput → Option String)
    (stream : String) (blobData : List α) (partitionKeys : List String) : KinesisResult :=
  let streamRecord : PutRecordsRequestEntry := { Data := [], PartitionKey := none }
  match kinesisLoop Marshal partitionKeys 0 blobData streamRecord [] with
  | none => .panicked
  | some (.error err) => .returned (some err) none
  | some (.ok (streamRecord, recordsList)) =>
    let deref : EntryAddr → PutRecordsRequestEntry := fun a =>
      match a with
      | .streamRecord => streamRecord
    let input : PutRecordsInput := { Records := recordsList.map deref, StreamName := stream }
    .returned (PutRecords input) (some input)

/-! ## timeseriesutil.go -/

/-- The struct `DatePercent`; `φ` is `float64`. -/
structure DatePercent (φ : Type) where
  Date : Int
  Percent : φ
deriving DecidableEq, Repr

/-- A query result item, `map[string]*dynamodb.AttributeValue`, reduced to the
`N` string of each attribute that is present with a non-nil `N`. -/
abbrev Item := List (String × String)

/-- The struct `awsutils.DynamoDBRangeQuery` as `FetchTimeSeries` fills it; `β`
is the type of the window bounds. -/
structure DynamoDBRangeQuery (β : Type) where
  TableName : String
  PartitionName : String
  PartitionKey : String
  SortName : String
  Low : β
  High : β

/-- What `FetchTimeSeries` calls: `searchutils.GetSearchWindow` (applied to the
clients and two empty strings), the method `TimeRangeQueryDynamoDB` of the
clients and `strconv.ParseFloat(_, 64)`, each with its Go result pair. `π` is
`searchutils.SearchPeriod` with its constant `Latest`. -/
structure SeriesDeps (π β φ : Type) where
  Latest : π
  GetSearchWindow : π → β × β
  TimeRangeQueryDynamoDB : DynamoDBRangeQuery β → List Item × Option String
  ParseFloat : String → φ × Option String

/-- Lines 31-43: the loop over the query result, `timeSeries` being the slice
built so far. `none` is the nil-pointer panic of reading an absent
attribute. -/
def timeSeriesLoop {φ : Type} (ParseFloat : String → φ × Option String) :
    List Item → List (DatePercent φ) → Option (List (DatePercent φ))
  | [], timeSeries => some timeSeries
  | timespot :: rest, timeSeries =>
    match timespot.lookup "Date" with
    | none => none
    | some dateN =>
      let parsed := Atoi dateN
      let date := parsed.1
      let err := parsed.2
      if err.isSome then timeSeriesLoop ParseFloat rest timeSeries
      else
        match timespot.lookup "Percent" with
        | none => none
        | some percentN =>
          let percent := (ParseFloat percentN).1
          if err.isSome then timeSeriesLoop ParseFloat rest timeSeries
          else timeSeriesLoop ParseFloat rest (timeSeries ++ [{ Date := date, Percent := percent }])

/-- The function `FetchTimeSeries` (lines 15-45); `none` is a panic. -/
def FetchTimeSeries {π β φ : Type} [DecidableEq π] (c : SeriesDeps π β φ)
    (tableName code : String) (period : π) : Option (String × List (DatePercent φ)) :=
  if period = c.Latest then some ("", [])
  else
    let window := c.GetSearchWindow period
    let query : DynamoDBRangeQuery β :=
      { TableName := tableName, PartitionName := "Code", PartitionKey := code,
        SortName := "Date", Low := window.1, High := window.2 }
    let res := (c.TimeRangeQueryDynamoDB query).1
    match timeSeriesLoop c.ParseFloat res [] with
    | none => none
    | some timeSeries => some (code, timeSeries)

/-! ## Reading a trace -/

/-- The dispatch cycles of a trace: the records scheduled between two
consecutive waits on the ticker, one list for each wait, `cur` being the
records scheduled since the last wait. -/
def cyclesFrom {ν : Type} :
    List (Event ν) → List (CombinedShortJSON ν) → List (List (CombinedShortJSON ν))
  | [], _ => []
  | Event.go r _ :: es, cur => cyclesFrom es (cur ++ [r])
  | Event.tick :: es, cur => cur :: cyclesFrom es []
  | Event.fetchJSON _ _ :: es, cur => cyclesFrom es cur
  | Event.updateWriteUnits _ _ :: es, cur => cyclesFrom es cur
  | Event.putItems _ _ :: es, cur => cyclesFrom es cur
  | Event.log _ _ :: es, cur => cyclesFrom es cur

/-- The dispatch cycles of a trace. -/
def cycles {ν : Type} (es : List (Event ν)) : List (List (CombinedShortJSON ν)) :=
  cyclesFrom es []

/-- The write tasks scheduled in a trace, in order: record and date. -/
def scheduled {ν : Type} : List (Event ν) → List (CombinedShortJSON ν × Int)
  | [] => []
  | Event.go r t :: es => (r, t) :: scheduled es
  | Event.tick :: es => scheduled es
  | Event.fetchJSON _ _ :: es => scheduled es
  | Event.updateWriteUnits _ _ :: es => scheduled es
  | Event.putItems _ _ :: es => scheduled es
  | Event.log _ _ :: es => scheduled es

/-- The capacity calls of a trace, in order: table and units. -/
def capacityCalls {ν : Type} : List (Event ν) → List (String × Int)
  | [] => []
  | Event.updateWriteUnits t u :: es => (t, u) :: capacityCalls es
  | Event.go _ _ :: es => capacityCalls es
  | Event.tick :: es => capacityCalls es
  | Event.fetchJSON _ _ :: es => capacityCalls es
  | Event.putItems _ _ :: es => capacityCalls es
  | Event.log _ _ :: es => capacityCalls es

/-- The number of waits on the ticker in a trace. -/
def tickCount {ν : Type} : List (Event ν) → Nat
  | [] => 0
  | Event.tick :: es => tickCount es + 1
  | Event.go _ _ :: es => tickCount es
  | Event.updateWriteUnits _ _ :: es => tickCount es
  | Event.fetchJSON _ _ :: es => tickCount es
  | Event.putItems _ _ :: es => tickCount es
  | Event.log _ _ :: es => tickCount es

/-- The `PutDynamoDBItems` calls a write task issues: table and attributes. -/
def putCalls {ν : Type} : List (Event ν) → List (String × Attributes ν)
  | [] => []
  | Event.putItems t a :: es => (t, a) :: putCalls es
  | Event.go _ _ :: es => putCalls es
  | Event.tick :: es => putCalls es
  | Event.updateWriteUnits _ _ :: es => putCalls es
  | Event.fetchJSON _ _ :: es => putCalls es
  | Event.log _ _ :: es => putCalls es

/-- The `PutDynamoDBItems` calls issued by all write tasks a trace schedules. -/
def writeCalls {ν : Type} (d : Dynamoingestor ν) (es : List (Event ν)) :
    List (String × Attributes ν) :=
  (scheduled es).flatMap (fun p => putCalls (putRecord d p.1 p.2))

/-! ## Sample inputs -/

/-- A record A. -/
def sampleA : CombinedShortJSON Int :=
  { Name := "A LTD", Code := "AAA", Shorts := 10, Total := 1000, Percent := 1, Industry := "Mining" }

/-- A record B. -/
def sampleB : CombinedShortJSON Int :=
  { Name := "B LTD", Code := "BBB", Shorts := 20, Total := 1000, Percent := 2, Industry := "Banks" }

/-- A record C. -/
def sampleC : CombinedShortJSON Int :=
  { Name := "C LTD", Code := "CCC", Shorts := 30, Total := 1000, Percent := 3, Industry := "Energy" }

/-- An ingestor whose fetch returns the batch A, B, C and whose every write
fails. -/
def sampleIngestor : Dynamoingestor Int :=
  { Clients :=
    { FetchJSONFileFromS3 := fun _ _ => (some { Result := [sampleA, sampleB, sampleC] }, none)
      PutDynamoDBItems := fun _ _ => some "ProvisionedThroughputExceededException" } }

/-- An ingestor whose fetch is `FetchJSONFileFromS3` over a download that
fails. -/
def sampleFailingIngestor : Dynamoingestor Int :=
  { Clients :=
    { FetchJSONFileFromS3 := fun bucket key =>
        (FetchJSONFileFromS3 (fun _ _ => { n := 0, buf := [], err := some "NoSuchKey" }) bucket key
          (fun _ => (some { Result := [sampleA] }, none))).1
      PutDynamoDBItems := fun _ _ => none } }

/-- A world in which the routine starts at 2024-01-15T23:30:00Z in a process
whose local zone is eleven hours east of UTC, takes the date stamp one second
later, whose capacity raise reports `writeUnits` write units, and which has the
memory for a channel of any size the runtime allows. -/
def sampleWorld (writeUnits : Int) : World :=
  { nowFetch := { unix := 1705361400, offset := 39600 }
    nowStamp := { unix := 1705361401, offset := 39600 }
    UpdateDynamoWriteUnits := fun _ units => (units, writeUnits)
    chanMemory := 2 ^ 45 }

/-- Dependencies of `WithDynamoDBGetLatest` in which every call succeeds: the
url was last modified at `urlTime` and the table records `recorded` (Unix
seconds). -/
def sampleLatestDeps (urlTime recorded : Int) : LatestDeps String :=
  { Head := fun url => .ok ("HEAD " ++ url)
    Get := fun url => (some ("GET " ++ url), none)
    LastModifiedHeader := fun _ => "last-modified of the url"
    ParseRFC1123 := fun _ => .ok { unix := urlTime, offset := 0 }
    ParseRFC3339 := fun _ => .ok { unix := recorded, offset := 0 }
    FormatRFC3339 := fun _ => "last-modified of the url, RFC3339"
    FetchDynamoDBLastModified := fun _ _ => .ok "recorded date"
    PutDynamoDBLastModified := fun _ _ _ => none }

/-- A marshal function on small numbers: the one ASCII digit. -/
def sampleMarshal (n : Nat) : Except String Bytes := .ok [UInt8.ofNat (48 + n)]

/-- Dependencies of `FetchTimeSeries`: period 0 is `Latest`; the query returns
three items, the first with a Percent that does not parse, the second with a
Date that does not parse, the third well-formed; `ParseFloat` knows "1". -/
def sampleSeriesDeps : SeriesDeps Nat Int Int :=
  { Latest := 0
    GetSearchWindow := fun _ => (20240101, 20240131)
    TimeRangeQueryDynamoDB := fun _ =>
      ([[("Code", "AAA"), ("Date", "20240115"), ("Percent", "abc")],
        [("Code", "AAA"), ("Date", "x"), ("Percent", "1")],
        [("Code", "AAA"), ("Date", "20240116"), ("Percent", "1")]], none)
    ParseFloat := fun s => if s = "1" then (1, none) else (0, some "invalid syntax") }

end Shorted

/-! ## Theorems -/

namespace Shorted

variable {ν : Type}

/-! ### The two inner loops -/

theorem fillBurst_eq (cap : Nat) (putRequest burstChannel : List (CombinedShortJSON ν))
    (h : burstChannel.length ≤ cap) :
    fillBurst cap putRequest burstChannel =
      (putRequest.drop (cap - burstChannel.length),
        burstChannel ++ putRequest.take (cap - burstChannel.length)) := by
  induction putRequest generalizing burstChannel with
  | nil => simp [fillBurst]
  | cons r rest ih =>
    unfold fillBurst
    by_cases hlt : burstChannel.length < cap
    · rw [if_pos hlt, ih (burstChannel ++ [r]) (by simp; omega)]
      obtain ⟨m, hm⟩ : ∃ m, cap - burstChannel.length = m + 1 := ⟨cap - burstChannel.length - 1, by omega⟩
      have hm2 : cap - (burstChannel ++ [r]).length = m := by simp; omega
      rw [hm, hm2]
      simp
    · rw [if_neg hlt]
      have h0 : cap - burstChannel.length = 0 := by omega
      simp [h0]

theorem fillBurst_empty (cap : Nat) (putRequest : List (CombinedShortJSON ν)) :
    fillBurst cap putRequest [] = (putRequest.drop cap, putRequest.take cap) := by
  simpa using fillBurst_eq cap putRequest [] (by simp)

theorem dispatchBurst_eq (timeVal : Int) (burstChannel : List (CombinedShortJSON ν)) :
    dispatchBurst timeVal burstChannel =
      (burstChannel.map (fun r => Event.go r timeVal), []) := by
  induction burstChannel with
  | nil => rfl
  | cons r rest ih => simp [dispatchBurst, ih]

theorem drainLoop_succ (cap : Nat) (timeVal : Int) (fuel : Nat)
    (putRequest : List (CombinedShortJSON ν)) (h : putRequest ≠ []) :
    drainLoop cap timeVal (fuel + 1) putRequest [] =
      ((putRequest.take cap).map (fun r => Event.go r timeVal) ++ [Event.tick] ++
          (drainLoop cap timeVal fuel (putRequest.drop cap) []).1,
        (drainLoop cap timeVal fuel (putRequest.drop cap) []).2) := by
  have hpos : putRequest.length > 0 := List.length_pos.mpr h
  simp only [drainLoop, if_pos hpos, fillBurst_empty, dispatchBurst_eq]

theorem drainLoop_nil (cap : Nat) (timeVal : Int) (fuel : Nat) :
    drainLoop cap timeVal fuel ([] : List (CombinedShortJSON ν)) [] = ([], Outcome.returned) := by
  cases fuel <;> simp [drainLoop]

theorem drainLoop_zero (cap : Nat) (timeVal : Int)
    (putRequest : List (CombinedShortJSON ν)) (h : putRequest ≠ []) :
    drainLoop cap timeVal 0 putRequest [] = ([], Outcome.running) := by
  have hpos : putRequest.length > 0 := List.length_pos.mpr h
  simp [drainLoop, hpos]

/-! ### The drain loop -/

theorem ceil_step (n b : Nat) (hb : 1 ≤ b) (hn : 1 ≤ n) :
    (n + b - 1) / b = (n - b + b - 1) / b + 1 := by
  have h1 : n + b - 1 = (n - 1) + b := by omega
  rw [h1, Nat.add_div_right _ (by omega : 0 < b)]
  congr 1
  by_cases hnb : b ≤ n
  · have h2 : n - b + b - 1 = n - 1 := by omega
    rw [h2]
  · have h2 : n - b + b - 1 = b - 1 := by omega
    rw [h2, Nat.div_eq_of_lt (by omega : n - 1 < b), Nat.div_eq_of_lt (by omega : b - 1 < b)]

theorem drainLoop_outcome (cap : Nat) (hcap : 1 ≤ cap) (timeVal : Int) (fuel : Nat)
    (putRequest : List (CombinedShortJSON ν)) :
    (drainLoop cap timeVal fuel putRequest []).2 =
      if (putRequest.length + cap - 1) / cap ≤ fuel then Outcome.returned else Outcome.running := by
  have hz : (cap - 1) / cap = 0 := Nat.div_eq_of_lt (by omega)
  induction fuel generalizing putRequest with
  | zero =>
    by_cases h : putRequest = []
    · subst h
      simp [drainLoop_nil, hz]
    · have hpos : 1 ≤ putRequest.length := List.length_pos.mpr h
      have hstep := ceil_step putRequest.length cap hcap hpos
      rw [drainLoop_zero cap timeVal putRequest h, if_neg (by rw [hstep]; exact Nat.not_succ_le_zero _)]
  | succ fuel ih =>
    by_cases h : putRequest = []
    · subst h
      simp [drainLoop_nil, hz]
    · have hpos : 1 ≤ putRequest.length := List.length_pos.mpr h
      have hstep := ceil_step putRequest.length cap hcap hpos
      rw [drainLoop_succ cap timeVal fuel putRequest h]
      simp only [ih, List.length_drop]
      rw [hstep]
      by_cases hle : (putRequest.length - cap + cap - 1) / cap ≤ fuel
      · rw [if_pos hle, if_pos (by omega)]
      · rw [if_neg hle, if_neg (by omega)]

theorem cyclesFrom_go_map (timeVal : Int) (l cur : List (CombinedShortJSON ν))
    (es : List (Event ν)) :
    cyclesFrom (l.map (fun r => Event.go r timeVal) ++ es) cur = cyclesFrom es (cur ++ l) := by
  induction l generalizing cur with
  | nil => simp
  | cons r rest ih => simp [cyclesFrom, ih]

theorem drainLoop_cycles (cap : Nat) (hcap : 1 ≤ cap) (timeVal : Int) (fuel : Nat)
    (putRequest : List (CombinedShortJSON ν))
    (hfuel : (putRequest.length + cap - 1) / cap ≤ fuel) :
    cyclesFrom (drainLoop cap timeVal fuel putRequest []).1 [] =
      (List.range ((putRequest.length + cap - 1) / cap)).map
        (fun k => (putRequest.drop (k * cap)).take cap) := by
  have hz : (cap - 1) / cap = 0 := Nat.div_eq_of_lt (by omega)
  induction fuel generalizing putRequest with
  | zero =>
    have h0 : (putRequest.length + cap - 1) / cap = 0 := Nat.le_zero.mp hfuel
    by_cases h : putRequest = []
    · subst h
      simp [drainLoop_nil, cyclesFrom, hz]
    · rw [drainLoop_zero cap timeVal putRequest h, h0]
      simp [cyclesFrom]
  | succ fuel ih =>
    by_cases h : putRequest = []
    · subst h
      simp [drainLoop_nil, cyclesFrom, hz]
    · have hpos : 1 ≤ putRequest.length := List.length_pos.mpr h
      have hstep := ceil_step putRequest.length cap hcap hpos
      have hrest : ((putRequest.drop cap).length + cap - 1) / cap ≤ fuel := by
        rw [List.length_drop]; rw [hstep] at hfuel; omega
      rw [drainLoop_succ cap timeVal fuel putRequest h]
      simp only [List.append_assoc, cyclesFrom_go_map, List.nil_append, List.singleton_append,
        cyclesFrom]
      rw [ih (putRequest.drop cap) hrest, hstep, List.range_succ_eq_map, List.length_drop]
      simp only [List.map_cons, List.map_map, Nat.zero_mul, List.drop_zero]
      congr 1
      apply List.map_congr_left
      intro k _
      simp only [Function.comp, List.drop_drop]
      congr 2
      rw [Nat.succ_mul]
      omega

/-! ### Reading the trace of the drain loop -/

theorem scheduled_append (a b : List (Event ν)) :
    scheduled (a ++ b) = scheduled a ++ scheduled b := by
  induction a with
  | nil => rfl
  | cons e es ih => cases e <;> simp [scheduled, ih]

theorem capacityCalls_append (a b : List (Event ν)) :
    capacityCalls (a ++ b) = capacityCalls a ++ capacityCalls b := by
  induction a with
  | nil => rfl
  | cons e es ih => cases e <;> simp [capacityCalls, ih]

theorem tickCount_append (a b : List (Event ν)) :
    tickCount (a ++ b) = tickCount a + tickCount b := by
  induction a with
  | nil => simp [tickCount]
  | cons e es ih =>
    cases e <;> rw [List.cons_append] <;> simp only [tickCount, ih]
    omega

theorem scheduled_go_map (timeVal : Int) (l : List (CombinedShortJSON ν)) :
    scheduled (l.map (fun r => Event.go r timeVal)) = l.map (fun r => (r, timeVal)) := by
  induction l with
  | nil => rfl
  | cons r rest ih => simp [scheduled, ih]

theorem capacityCalls_go_map (timeVal : Int) (l : List (CombinedShortJSON ν)) :
    capacityCalls (l.map (fun r => Event.go r timeVal)) = [] := by
  induction l with
  | nil => rfl
  | cons r rest ih => simp [capacityCalls, ih]

theorem cyclesFrom_append_update (es : List (Event ν)) (cur : List (CombinedShortJSON ν))
    (table : String) (units : Int) :
    cyclesFrom (es ++ [Event.updateWriteUnits table units]) cur = cyclesFrom es cur := by
  induction es generalizing cur with
  | nil => simp [cyclesFrom]
  | cons e es ih => cases e <;> simp [cyclesFrom, ih]

theorem drainLoop_scheduled (cap : Nat) (timeVal : Int) (fuel : Nat)
    (putRequest : List (CombinedShortJSON ν)) :
    scheduled (drainLoop cap timeVal fuel putRequest []).1 =
      (putRequest.take (fuel * cap)).map (fun r => (r, timeVal)) := by
  induction fuel generalizing putRequest with
  | zero =>
    by_cases h : putRequest = []
    · subst h
      simp [drainLoop_nil, scheduled]
    · simp [drainLoop_zero cap timeVal putRequest h, scheduled]
  | succ fuel ih =>
    by_cases h : putRequest = []
    · subst h
      simp [drainLoop_nil, scheduled]
    · rw [drainLoop_succ cap timeVal fuel putRequest h]
      simp only [scheduled_append, scheduled_go_map, ih, scheduled, List.append_nil]
      rw [← List.map_append, ← List.take_add, Nat.succ_mul, Nat.add_comm]

theorem drainLoop_capacityCalls (cap : Nat) (timeVal : Int) (fuel : Nat)
    (putRequest : List (CombinedShortJSON ν)) :
    capacityCalls (drainLoop cap timeVal fuel putRequest []).1 = [] := by
  induction fuel generalizing putRequest with
  | zero =>
    by_cases h : putRequest = []
    · subst h
      simp [drainLoop_nil, capacityCalls]
    · simp [drainLoop_zero cap timeVal putRequest h, capacityCalls]
  | succ fuel ih =>
    by_cases h : putRequest = []
    · subst h
      simp [drainLoop_nil, capacityCalls]
    · rw [drainLoop_succ cap timeVal fuel putRequest h]
      simp only [capacityCalls_append, capacityCalls_go_map, ih, capacityCalls, List.append_nil]

theorem drainLoop_tickCount_zero_cap (timeVal : Int) (fuel : Nat)
    (putRequest : List (CombinedShortJSON ν)) (h : putRequest ≠ []) :
    tickCount (drainLoop 0 timeVal fuel putRequest []).1 = fuel ∧
      (drainLoop 0 timeVal fuel putRequest []).2 = Outcome.running := by
  induction fuel with
  | zero => simp [drainLoop_zero 0 timeVal putRequest h, tickCount]
  | succ fuel ih =>
    rw [drainLoop_succ 0 timeVal fuel putRequest h]
    rw [List.take_zero, List.map_nil, List.nil_append, List.drop_zero, List.singleton_append]
    simp only [tickCount, ih, and_self]

/-! ### The shape of a run whose fetch succeeds -/

theorem makechan_fits (chanMemory size : Nat) (hmax : 8 * size ≤ 2 ^ 48 - 96)
    (hmem : size ≤ chanMemory) : makechan chanMemory (size : Int) = some size := by
  unfold makechan
  rw [if_neg (by omega)]
  rfl

theorem makechan_neg (chanMemory : Nat) (size : Int) (h : size < 0) :
    makechan chanMemory size = none := by
  unfold makechan
  rw [if_pos (Or.inl h)]

theorem makechan_zero (chanMemory : Nat) : makechan chanMemory 0 = some 0 :=
  makechan_fits chanMemory 0 (by decide) (Nat.zero_le _)

theorem makechan_some_iff (chanMemory : Nat) (size : Int) (burstCap : Nat) :
    makechan chanMemory size = some burstCap ↔
      (0 ≤ size ∧ 8 * size ≤ 2 ^ 48 - 96 ∧ size ≤ chanMemory) ∧ size = burstCap := by
  unfold makechan
  by_cases h : size < 0 ∨ 8 * size > 2 ^ 48 - 96 ∨ size > chanMemory
  · rw [if_pos h]
    constructor
    · intro h'
      cases h'
    · rintro ⟨⟨h1, h2, h3⟩, _⟩
      omega
  · rw [if_neg h]
    constructor
    · intro h'
      have := Option.some.inj h'
      omega
    · rintro ⟨_, h'⟩
      congr 1
      omega

/-- A run whose fetch succeeds and in which one of the two channels cannot be
made ends after the capacity raise. -/
theorem IngestRoutine_of_make_panic (w : World) (d : Dynamoingestor ν) (tableName : String)
    (fuel : Nat) (batch : List (CombinedShortJSON ν))
    (hfetch : d.Clients.FetchJSONFileFromS3 "shortedappjmk" (ingestKey w) =
      (some { Result := batch }, none))
    (hmake : makechan w.chanMemory batch.length = none ∨
      makechan w.chanMemory (w.UpdateDynamoWriteUnits tableName 25).2 = none) :
    IngestRoutine w d tableName fuel =
      ⟨[Event.fetchJSON "shortedappjmk" (ingestKey w), Event.updateWriteUnits tableName 25],
        Outcome.panicked⟩ := by
  cases hq : makechan w.chanMemory batch.length with
  | none =>
    simp only [IngestRoutine, hfetch, hq]
    rfl
  | some q =>
    have hb := hmake.resolve_left (by rw [hq]; exact fun h => Option.noConfusion h)
    simp only [IngestRoutine, hfetch, hq, hb]
    rfl

/-- The events of the routine once the fetch has succeeded and both channels
have been made. -/
theorem IngestRoutine_ok (w : World) (d : Dynamoingestor ν) (tableName : String) (fuel : Nat)
    (batch : List (CombinedShortJSON ν)) (queueCap burstCap : Nat)
    (hfetch : d.Clients.FetchJSONFileFromS3 "shortedappjmk" (ingestKey w) =
      (some { Result := batch }, none))
    (hqueue : makechan w.chanMemory batch.length = some queueCap)
    (hburst : makechan w.chanMemory (w.UpdateDynamoWriteUnits tableName 25).2 = some burstCap) :
    ∃ stampLog : List (Event ν), capacityCalls stampLog = [] ∧ scheduled stampLog = [] ∧
      tickCount stampLog = 0 ∧ (∀ cur, ∀ es, cyclesFrom (stampLog ++ es) cur = cyclesFrom es cur) ∧
      (IngestRoutine w d tableName fuel).outcome =
        (drainLoop burstCap (ingestTimeVal w).1 fuel batch []).2 ∧
      (IngestRoutine w d tableName fuel).events =
        [Event.fetchJSON "shortedappjmk" (ingestKey w), Event.updateWriteUnits tableName 25] ++
          stampLog ++ (drainLoop burstCap (ingestTimeVal w).1 fuel batch []).1 ++
          (if (drainLoop burstCap (ingestTimeVal w).1 fuel batch []).2 = Outcome.returned
            then [Event.updateWriteUnits tableName 5] else []) := by
  cases hstamp : (ingestTimeVal w).2 with
  | none =>
    refine ⟨[], rfl, rfl, rfl, fun _ _ => rfl, ?_, ?_⟩ <;>
    · simp only [IngestRoutine, hfetch, hqueue, hburst, hstamp]
      cases (drainLoop burstCap (ingestTimeVal w).1 fuel batch []).2 <;> simp
  | some e =>
    refine ⟨[Event.log "IngestRoutine" "failed to create int from date"], rfl, rfl, rfl,
      fun _ _ => rfl, ?_, ?_⟩ <;>
    · simp only [IngestRoutine, hfetch, hqueue, hburst, hstamp]
      cases (drainLoop burstCap (ingestTimeVal w).1 fuel batch []).2 <;> simp

theorem putCalls_putRecord (d : Dynamoingestor ν) (data : CombinedShortJSON ν) (date : Int) :
    putCalls (putRecord d data date) = [("testShorts", putRecordAttributes data date)] := by
  simp only [putRecord]
  cases d.Clients.PutDynamoDBItems "testShorts" (putRecordAttributes data date) <;>
    simp [putCalls]

theorem writeCalls_eq (d : Dynamoingestor ν) (es : List (Event ν)) :
    writeCalls d es =
      (scheduled es).map (fun p => ("testShorts", putRecordAttributes p.1 p.2)) := by
  unfold writeCalls
  simp only [putCalls_putRecord]
  induction scheduled es with
  | nil => rfl
  | cons p ps ih => simp [List.flatMap_cons, ih]

/-! ### The claims about `IngestRoutine` -/

/-- C1, as the code has it: when the fetch returns a batch of N records and the
capacity raise reports a burst capacity B of at least 1, and channels of N and
of B record pointers can be made (8 bytes a pointer within the 2^48 - 96 bytes
the runtime allows, and within the memory of the process), the run returns
exactly when it is given ceil(N / B) loop iterations, and then its trace has
ceil(N / B) cycles, cycle k (counted from 0) holding the records at batch
positions k*B up to min((k+1)*B, N) in batch order, that is min(B, N - k*B)
records and never more than B; the write tasks scheduled are the batch, each
record once and in order, and each task issues one write, whatever the writes
answer. -/
theorem IngestRoutine_cycles_are_chunks (w : World) (d : Dynamoingestor ν) (tableName : String)
    (batch : List (CombinedShortJSON ν)) (B : Nat)
    (hfetch : d.Clients.FetchJSONFileFromS3 "shortedappjmk" (ingestKey w) =
      (some { Result := batch }, none))
    (hB : 1 ≤ B) (hraise : (w.UpdateDynamoWriteUnits tableName 25).2 = (B : Int))
    (hBmax : 8 * B ≤ 2 ^ 48 - 96) (hBmem : B ≤ w.chanMemory)
    (hNmax : 8 * batch.length ≤ 2 ^ 48 - 96) (hNmem : batch.length ≤ w.chanMemory)
    (fuel : Nat) :
    ((IngestRoutine w d tableName fuel).outcome = Outcome.returned ↔
        (batch.length + B - 1) / B ≤ fuel) ∧
      ((batch.length + B - 1) / B ≤ fuel →
        (cycles (IngestRoutine w d tableName fuel).events).length = (batch.length + B - 1) / B ∧
        (∀ k, k < (batch.length + B - 1) / B →
          ∃ c, (cycles (IngestRoutine w d tableName fuel).events)[k]? = some c ∧
            c = (batch.drop (k * B)).take B ∧
            c.length = min B (batch.length - k * B) ∧ c.length ≤ B) ∧
        (scheduled (IngestRoutine w d tableName fuel).events).map Prod.fst = batch ∧
        (scheduled (IngestRoutine w d tableName fuel).events).length = batch.length ∧
        (writeCalls d (IngestRoutine w d tableName fuel).events).length = batch.length) := by
  obtain ⟨stampLog, hcc, hsched, _, hcyc, hout, hev⟩ :=
    IngestRoutine_ok w d tableName fuel batch batch.length B hfetch
      (makechan_fits _ _ hNmax hNmem) (by rw [hraise]; exact makechan_fits _ _ hBmax hBmem)
  have houtcome := drainLoop_outcome B hB (ingestTimeVal w).1 fuel batch
  constructor
  · rw [hout, houtcome]
    by_cases hle : (batch.length + B - 1) / B ≤ fuel <;> simp [hle]
  · intro hfuel
    have hret : (drainLoop B (ingestTimeVal w).1 fuel batch []).2 = Outcome.returned := by
      rw [houtcome, if_pos hfuel]
    have hcycles : cycles (IngestRoutine w d tableName fuel).events =
        (List.range ((batch.length + B - 1) / B)).map (fun k => (batch.drop (k * B)).take B) := by
      rw [hev, if_pos hret]
      unfold cycles
      rw [cyclesFrom_append_update, List.append_assoc, List.cons_append, List.cons_append,
        List.nil_append]
      simp only [cyclesFrom]
      rw [hcyc, drainLoop_cycles B hB _ fuel batch hfuel]
    have hfull : batch.length ≤ fuel * B := by
      have h1 : batch.length + B - 1 < B * ((batch.length + B - 1) / B + 1) :=
        Nat.lt_mul_div_succ _ (by omega)
      have h2 : (batch.length + B - 1) / B * B ≤ fuel * B := Nat.mul_le_mul_right B hfuel
      rw [Nat.mul_succ, Nat.mul_comm B] at h1
      omega
    have hs : scheduled (IngestRoutine w d tableName fuel).events =
        batch.map (fun r => (r, (ingestTimeVal w).1)) := by
      rw [hev, if_pos hret, scheduled_append, scheduled_append, scheduled_append, hsched,
        drainLoop_scheduled, List.take_of_length_le hfull]
      simp [scheduled]
    refine ⟨?_, ?_, ?_, ?_, ?_⟩
    · rw [hcycles, List.length_map, List.length_range]
    · intro k hk
      refine ⟨(batch.drop (k * B)).take B, ?_, rfl, ?_, ?_⟩
      · rw [hcycles, List.getElem?_map, List.getElem?_range hk]
        rfl
      · rw [List.length_take, List.length_drop]
      · rw [List.length_take]
        exact Nat.min_le_left _ _
    · rw [hs, List.map_map]
      exact List.map_id batch
    · rw [hs, List.length_map]
    · rw [writeCalls_eq, hs, List.length_map, List.length_map]

/-- The witness of C1: batch A, B, C with burst capacity 2 and every write
failing; the run returns with two loop iterations. -/
theorem IngestRoutine_cycles_are_chunks_witness :
    ((IngestRoutine (sampleWorld 2) sampleIngestor "testShorts" 2).outcome = Outcome.returned ↔
        ([sampleA, sampleB, sampleC].length + 2 - 1) / 2 ≤ 2) ∧
      (([sampleA, sampleB, sampleC].length + 2 - 1) / 2 ≤ 2 →
        (cycles (IngestRoutine (sampleWorld 2) sampleIngestor "testShorts" 2).events).length =
          ([sampleA, sampleB, sampleC].length + 2 - 1) / 2 ∧
        (∀ k, k < ([sampleA, sampleB, sampleC].length + 2 - 1) / 2 →
          ∃ c, (cycles (IngestRoutine (sampleWorld 2) sampleIngestor "testShorts" 2).events)[k]? =
              some c ∧
            c = ([sampleA, sampleB, sampleC].drop (k * 2)).take 2 ∧
            c.length = min 2 ([sampleA, sampleB, sampleC].length - k * 2) ∧ c.length ≤ 2) ∧
        (scheduled (IngestRoutine (sampleWorld 2) sampleIngestor "testShorts" 2).events).map
          Prod.fst = [sampleA, sampleB, sampleC] ∧
        (scheduled (IngestRoutine (sampleWorld 2) sampleIngestor "testShorts" 2).events).length =
          [sampleA, sampleB, sampleC].length ∧
        (writeCalls sampleIngestor
          (IngestRoutine (sampleWorld 2) sampleIngestor "testShorts" 2).events).length =
          [sampleA, sampleB, sampleC].length) :=
  IngestRoutine_cycles_are_chunks (sampleWorld 2) sampleIngestor "testShorts"
    [sampleA, sampleB, sampleC] 2 rfl (by decide) rfl (by decide) (by decide) (by decide)
    (by decide) 2

/-- C1 as stated fails: with the batch A, B, C and a burst capacity of 2^62,
which is at least 1 and gives ceil(3 / 2^62) = 1, the run given one iteration
(or any number) does not return: making the burst channel ends it in a panic,
with no cycle run and no write task scheduled. -/
theorem IngestRoutine_huge_capacity_schedules_nothing :
    (1 : Int) ≤ ((sampleWorld (2 ^ 62)).UpdateDynamoWriteUnits "testShorts" 25).2 ∧
      ([sampleA, sampleB, sampleC].length + 2 ^ 62 - 1) / 2 ^ 62 = 1 ∧
      (IngestRoutine (sampleWorld (2 ^ 62)) sampleIngestor "testShorts" 1).outcome =
        Outcome.panicked ∧
      cycles (IngestRoutine (sampleWorld (2 ^ 62)) sampleIngestor "testShorts" 1).events = [] ∧
      scheduled (IngestRoutine (sampleWorld (2 ^ 62)) sampleIngestor "testShorts" 1).events =
        [] ∧
      ¬ ∃ fuel, (IngestRoutine (sampleWorld (2 ^ 62)) sampleIngestor "testShorts" fuel).outcome =
        Outcome.returned := by
  have hrun := fun fuel => IngestRoutine_of_make_panic (sampleWorld (2 ^ 62)) sampleIngestor
    "testShorts" fuel [sampleA, sampleB, sampleC] rfl (Or.inr (by decide))
  refine ⟨by decide, by decide, by rw [hrun], by rw [hrun]; rfl, by rw [hrun]; rfl, ?_⟩
  rintro ⟨fuel, h⟩
  rw [hrun] at h
  exact Outcome.noConfusion h

theorem IngestRoutine_of_fetch_error (w : World) (d : Dynamoingestor ν) (tableName : String)
    (fuel : Nat) (err : String)
    (hfetch : (d.Clients.FetchJSONFileFromS3 "shortedappjmk" (ingestKey w)).2 = some err) :
    IngestRoutine w d tableName fuel =
      ⟨[Event.fetchJSON "shortedappjmk" (ingestKey w),
        Event.log "IngestRoutine" "unable to fetch data from s3"], Outcome.returned⟩ := by
  simp only [IngestRoutine, hfetch]
  rfl

/-- C2: when `FetchJSONFileFromS3` returns an error, the run returns after the
fetch and one log line: no capacity call is made, no write task is scheduled
and no `PutDynamoDBItems` call is issued. -/
theorem IngestRoutine_fetch_error_stops (w : World) (d : Dynamoingestor ν) (tableName : String)
    (fuel : Nat) (err : String)
    (hfetch : (d.Clients.FetchJSONFileFromS3 "shortedappjmk" (ingestKey w)).2 = some err) :
    (IngestRoutine w d tableName fuel).outcome = Outcome.returned ∧
      (IngestRoutine w d tableName fuel).events =
        [Event.fetchJSON "shortedappjmk" (ingestKey w),
          Event.log "IngestRoutine" "unable to fetch data from s3"] ∧
      capacityCalls (IngestRoutine w d tableName fuel).events = [] ∧
      scheduled (IngestRoutine w d tableName fuel).events = [] ∧
      writeCalls d (IngestRoutine w d tableName fuel).events = [] := by
  rw [IngestRoutine_of_fetch_error w d tableName fuel err hfetch]
  exact ⟨rfl, rfl, rfl, rfl, rfl⟩

/-- The witness of C2: the download of the day's object fails. -/
theorem IngestRoutine_fetch_error_stops_witness :
    (IngestRoutine (sampleWorld 25) sampleFailingIngestor "testShorts" 7).outcome =
        Outcome.returned ∧
      (IngestRoutine (sampleWorld 25) sampleFailingIngestor "testShorts" 7).events =
        [Event.fetchJSON "shortedappjmk" (ingestKey (sampleWorld 25)),
          Event.log "IngestRoutine" "unable to fetch data from s3"] ∧
      capacityCalls (IngestRoutine (sampleWorld 25) sampleFailingIngestor "testShorts" 7).events =
        [] ∧
      scheduled (IngestRoutine (sampleWorld 25) sampleFailingIngestor "testShorts" 7).events = [] ∧
      writeCalls sampleFailingIngestor
        (IngestRoutine (sampleWorld 25) sampleFailingIngestor "testShorts" 7).events = [] :=
  IngestRoutine_fetch_error_stops (sampleWorld 25) sampleFailingIngestor "testShorts" 7
    "NoSuchKey" rfl

/-- C3, as the code has it: when the fetch succeeds, the burst capacity B is at
least 1, and channels of N and of B record pointers can be made (8 bytes a
pointer within the 2^48 - 96 bytes the runtime allows, and within the memory of
the process), the run (given its ceil(N / B) iterations) returns and makes
exactly two capacity calls, 25 and then 5 on the table it was given; the trace
is a part without any scheduled task, the raise, a part without any capacity
call in which the whole batch is scheduled, and the restore as its last event.
The client, and so the answer of every write, is arbitrary. -/
theorem IngestRoutine_capacity_brackets_writes (w : World) (d : Dynamoingestor ν)
    (tableName : String) (batch : List (CombinedShortJSON ν)) (B : Nat)
    (hfetch : d.Clients.FetchJSONFileFromS3 "shortedappjmk" (ingestKey w) =
      (some { Result := batch }, none))
    (hB : 1 ≤ B) (hraise : (w.UpdateDynamoWriteUnits tableName 25).2 = (B : Int))
    (hBmax : 8 * B ≤ 2 ^ 48 - 96) (hBmem : B ≤ w.chanMemory)
    (hNmax : 8 * batch.length ≤ 2 ^ 48 - 96) (hNmem : batch.length ≤ w.chanMemory)
    (fuel : Nat) (hfuel : (batch.length + B - 1) / B ≤ fuel) :
    (IngestRoutine w d tableName fuel).outcome = Outcome.returned ∧
      capacityCalls (IngestRoutine w d tableName fuel).events =
        [(tableName, 25), (tableName, 5)] ∧
      ∃ before during : List (Event ν),
        (IngestRoutine w d tableName fuel).events =
          before ++ [Event.updateWriteUnits tableName 25] ++ during ++
            [Event.updateWriteUnits tableName 5] ∧
        scheduled before = [] ∧ capacityCalls before = [] ∧ capacityCalls during = [] ∧
        (scheduled during).map Prod.fst = batch := by
  obtain ⟨stampLog, hcc, hsched, _, _, hout, hev⟩ :=
    IngestRoutine_ok w d tableName fuel batch batch.length B hfetch
      (makechan_fits _ _ hNmax hNmem) (by rw [hraise]; exact makechan_fits _ _ hBmax hBmem)
  have hret : (drainLoop B (ingestTimeVal w).1 fuel batch []).2 = Outcome.returned := by
    rw [drainLoop_outcome B hB, if_pos hfuel]
  have hfull : batch.length ≤ fuel * B := by
    have h1 : batch.length + B - 1 < B * ((batch.length + B - 1) / B + 1) :=
      Nat.lt_mul_div_succ _ (by omega)
    have h2 : (batch.length + B - 1) / B * B ≤ fuel * B := Nat.mul_le_mul_right B hfuel
    rw [Nat.mul_succ, Nat.mul_comm B] at h1
    omega
  rw [if_pos hret] at hev
  refine ⟨by rw [hout, hret], ?_, [Event.fetchJSON "shortedappjmk" (ingestKey w)],
    stampLog ++ (drainLoop B (ingestTimeVal w).1 fuel batch []).1, ?_, rfl, rfl, ?_, ?_⟩
  · rw [hev, capacityCalls_append, capacityCalls_append, capacityCalls_append, hcc,
      drainLoop_capacityCalls]
    rfl
  · rw [hev]
    simp
  · rw [capacityCalls_append, hcc, drainLoop_capacityCalls]
    rfl
  · rw [scheduled_append, hsched, drainLoop_scheduled, List.take_of_length_le hfull,
      List.nil_append, List.map_map]
    exact List.map_id batch

/-- The witness of C3: batch A, B, C, burst capacity 2, every write failing. -/
theorem IngestRoutine_capacity_brackets_writes_witness :
    (IngestRoutine (sampleWorld 2) sampleIngestor "testShorts" 2).outcome = Outcome.returned ∧
      capacityCalls (IngestRoutine (sampleWorld 2) sampleIngestor "testShorts" 2).events =
        [("testShorts", 25), ("testShorts", 5)] ∧
      ∃ before during : List (Event Int),
        (IngestRoutine (sampleWorld 2) sampleIngestor "testShorts" 2).events =
          before ++ [Event.updateWriteUnits "testShorts" 25] ++ during ++
            [Event.updateWriteUnits "testShorts" 5] ∧
        scheduled before = [] ∧ capacityCalls before = [] ∧ capacityCalls during = [] ∧
        (scheduled during).map Prod.fst = [sampleA, sampleB, sampleC] :=
  IngestRoutine_capacity_brackets_writes (sampleWorld 2) sampleIngestor "testShorts"
    [sampleA, sampleB, sampleC] 2 rfl (by decide) rfl (by decide) (by decide) (by decide)
    (by decide) 2 (by decide)

/-- C3 as stated fails: with a successful fetch of A, B, C and a burst capacity
of 2^62, which is at least 1, the run makes one capacity call only, the raise
to 25: making the burst channel ends it in a panic, so for no number of
iterations is the capacity restored to 5. -/
theorem IngestRoutine_huge_capacity_never_restores :
    (1 : Int) ≤ ((sampleWorld (2 ^ 62)).UpdateDynamoWriteUnits "testShorts" 25).2 ∧
      sampleIngestor.Clients.FetchJSONFileFromS3 "shortedappjmk"
          (ingestKey (sampleWorld (2 ^ 62))) =
        (some { Result := [sampleA, sampleB, sampleC] }, none) ∧
      ¬ ∃ fuel,
        capacityCalls (IngestRoutine (sampleWorld (2 ^ 62)) sampleIngestor "testShorts"
          fuel).events ≠ [("testShorts", 25)] ∨
        (IngestRoutine (sampleWorld (2 ^ 62)) sampleIngestor "testShorts" fuel).outcome ≠
          Outcome.panicked := by
  refine ⟨by decide, rfl, ?_⟩
  rintro ⟨fuel, h⟩
  rw [IngestRoutine_of_make_panic (sampleWorld (2 ^ 62)) sampleIngestor "testShorts" fuel
    [sampleA, sampleB, sampleC] rfl (Or.inr (by decide))] at h
  rcases h with h | h
  · exact h rfl
  · exact h rfl

/-- C4, as the code has it: when the fetch succeeds and the burst capacity is 0
or negative, no write task is scheduled and no write is issued, for every batch
and however many iterations the loop is given. When the capacity is negative
the run waits on the ticker not once (no cycle) and ends in a panic, its trace
being the fetch and the capacity raise: the raise is its only capacity call,
the capacity is not restored. When the capacity is 0 and the batch is empty the
run waits on the ticker not once and returns, having raised the capacity to 25
and restored it to 5. -/
theorem IngestRoutine_nonpositive_capacity (w : World) (d : Dynamoingestor ν)
    (tableName : String) (batch : List (CombinedShortJSON ν))
    (hfetch : d.Clients.FetchJSONFileFromS3 "shortedappjmk" (ingestKey w) =
      (some { Result := batch }, none))
    (hcap : (w.UpdateDynamoWriteUnits tableName 25).2 ≤ 0) (fuel : Nat) :
    scheduled (IngestRoutine w d tableName fuel).events = [] ∧
      writeCalls d (IngestRoutine w d tableName fuel).events = [] ∧
      ((w.UpdateDynamoWriteUnits tableName 25).2 < 0 →
        (IngestRoutine w d tableName fuel).outcome = Outcome.panicked ∧
        (IngestRoutine w d tableName fuel).events =
          [Event.fetchJSON "shortedappjmk" (ingestKey w), Event.updateWriteUnits tableName 25] ∧
        tickCount (IngestRoutine w d tableName fuel).events = 0 ∧
        capacityCalls (IngestRoutine w d tableName fuel).events = [(tableName, 25)]) ∧
      ((w.UpdateDynamoWriteUnits tableName 25).2 = 0 → batch = [] →
        (IngestRoutine w d tableName fuel).outcome = Outcome.returned ∧
        tickCount (IngestRoutine w d tableName fuel).events = 0 ∧
        capacityCalls (IngestRoutine w d tableName fuel).events =
          [(tableName, 25), (tableName, 5)]) := by
  have hpanic : makechan w.chanMemory batch.length = none ∨
      makechan w.chanMemory (w.UpdateDynamoWriteUnits tableName 25).2 = none →
      scheduled (IngestRoutine w d tableName fuel).events = [] ∧
      (IngestRoutine w d tableName fuel).outcome = Outcome.panicked ∧
      (IngestRoutine w d tableName fuel).events =
        [Event.fetchJSON "shortedappjmk" (ingestKey w), Event.updateWriteUnits tableName 25] ∧
      tickCount (IngestRoutine w d tableName fuel).events = 0 ∧
      capacityCalls (IngestRoutine w d tableName fuel).events = [(tableName, 25)] := by
    intro hmake
    rw [IngestRoutine_of_make_panic w d tableName fuel batch hfetch hmake]
    exact ⟨rfl, rfl, rfl, rfl, rfl⟩
  have hsched : scheduled (IngestRoutine w d tableName fuel).events = [] := by
    cases hq : makechan w.chanMemory batch.length with
    | none => exact (hpanic (Or.inl hq)).1
    | some queueCap =>
      cases hb : makechan w.chanMemory (w.UpdateDynamoWriteUnits tableName 25).2 with
      | none => exact (hpanic (Or.inr hb)).1
      | some burstCap =>
        have hzero : burstCap = 0 := by
          have := ((makechan_some_iff _ _ _).mp hb)
          omega
        subst hzero
        obtain ⟨stampLog, _, hs, _, _, _, hev⟩ :=
          IngestRoutine_ok w d tableName fuel batch queueCap 0 hfetch hq hb
        rw [hev, scheduled_append, scheduled_append, scheduled_append, hs, drainLoop_scheduled,
          Nat.mul_zero, List.take_zero]
        split <;> rfl
  refine ⟨hsched, by rw [writeCalls_eq, hsched]; rfl, ?_, ?_⟩
  · intro hneg
    exact (hpanic (Or.inr (makechan_neg _ _ hneg))).2
  · intro hzero hbatch
    subst hbatch
    obtain ⟨stampLog, hcc, _, htick, _, hout, hev⟩ :=
      IngestRoutine_ok w d tableName fuel [] 0 0 hfetch (makechan_zero _)
        (by rw [hzero]; exact makechan_zero _)
    rw [drainLoop_nil] at hout hev
    refine ⟨hout, ?_, ?_⟩
    · rw [hev, tickCount_append, tickCount_append, tickCount_append, htick]
      rfl
    · rw [hev, capacityCalls_append, capacityCalls_append, capacityCalls_append, hcc]
      rfl

/-- The witness of C4 as the code has it: burst capacity -1 on the batch
A, B, C. -/
theorem IngestRoutine_nonpositive_capacity_witness :
    scheduled (IngestRoutine (sampleWorld (-1)) sampleIngestor "testShorts" 4).events = [] ∧
      writeCalls sampleIngestor
        (IngestRoutine (sampleWorld (-1)) sampleIngestor "testShorts" 4).events = [] ∧
      (((sampleWorld (-1)).UpdateDynamoWriteUnits "testShorts" 25).2 < 0 →
        (IngestRoutine (sampleWorld (-1)) sampleIngestor "testShorts" 4).outcome =
          Outcome.panicked ∧
        (IngestRoutine (sampleWorld (-1)) sampleIngestor "testShorts" 4).events =
          [Event.fetchJSON "shortedappjmk" (ingestKey (sampleWorld (-1))),
            Event.updateWriteUnits "testShorts" 25] ∧
        tickCount (IngestRoutine (sampleWorld (-1)) sampleIngestor "testShorts" 4).events = 0 ∧
        capacityCalls (IngestRoutine (sampleWorld (-1)) sampleIngestor "testShorts" 4).events =
          [("testShorts", 25)]) ∧
      (((sampleWorld (-1)).UpdateDynamoWriteUnits "testShorts" 25).2 = 0 →
        [sampleA, sampleB, sampleC] = [] →
        (IngestRoutine (sampleWorld (-1)) sampleIngestor "testShorts" 4).outcome =
          Outcome.returned ∧
        tickCount (IngestRoutine (sampleWorld (-1)) sampleIngestor "testShorts" 4).events = 0 ∧
        capacityCalls (IngestRoutine (sampleWorld (-1)) sampleIngestor "testShorts" 4).events =
          [("testShorts", 25), ("testShorts", 5)]) :=
  IngestRoutine_nonpositive_capacity (sampleWorld (-1)) sampleIngestor "testShorts"
    [sampleA, sampleB, sampleC] rfl (by decide) 4

/-- C4 as stated fails: with burst capacity 0 and the batch A, B, C the run is
not rejected; it enters the loop, has waited on the ticker three times after
three iterations, is still running then, and returns for no amount of fuel. -/
theorem IngestRoutine_zero_capacity_never_returns :
    ((sampleWorld 0).UpdateDynamoWriteUnits "testShorts" 25).2 ≤ 0 ∧
      tickCount (IngestRoutine (sampleWorld 0) sampleIngestor "testShorts" 3).events = 3 ∧
      (IngestRoutine (sampleWorld 0) sampleIngestor "testShorts" 3).outcome = Outcome.running ∧
      ¬ ∃ fuel, (IngestRoutine (sampleWorld 0) sampleIngestor "testShorts" fuel).outcome ≠
        Outcome.running := by
  refine ⟨by decide, by decide, by decide, ?_⟩
  rintro ⟨fuel, hne⟩
  obtain ⟨_, _, _, _, _, hout, _⟩ :=
    IngestRoutine_ok (sampleWorld 0) sampleIngestor "testShorts" fuel
      [sampleA, sampleB, sampleC] 3 0 rfl (by decide) (by decide)
  apply hne
  rw [hout]
  exact (drainLoop_tickCount_zero_cap _ fuel [sampleA, sampleB, sampleC] (by simp)).2

/-- C5: every write task a run schedules carries the one date stamp of the run,
the integer parsed from the UTC day of the second clock reading, and the write
it issues stores that integer under "Date" next to the Name, Code, Shorts,
Total, Percent and Industry of its own record. -/
theorem IngestRoutine_shared_date (w : World) (d : Dynamoingestor ν) (tableName : String)
    (fuel : Nat) (p : CombinedShortJSON ν × Int)
    (hp : p ∈ scheduled (IngestRoutine w d tableName fuel).events) :
    p.2 = (ingestTimeVal w).1 ∧
      (putCalls (putRecord d p.1 p.2)).map Prod.snd =
        [[("Name", AttrValue.str p.1.Name), ("Code", AttrValue.str p.1.Code),
          ("Shorts", AttrValue.num p.1.Shorts), ("Total", AttrValue.num p.1.Total),
          ("Percent", AttrValue.num p.1.Percent), ("Industry", AttrValue.str p.1.Industry),
          ("Date", AttrValue.int (ingestTimeVal w).1)]] := by
  have hdate : p.2 = (ingestTimeVal w).1 := by
    rcases hf : d.Clients.FetchJSONFileFromS3 "shortedappjmk" (ingestKey w) with ⟨data, err⟩
    cases err with
    | some e =>
      rw [IngestRoutine_of_fetch_error w d tableName fuel e (by rw [hf])] at hp
      cases hp
    | none =>
      cases data with
      | none =>
        have hrun : (IngestRoutine w d tableName fuel).events =
            [Event.fetchJSON "shortedappjmk" (ingestKey w),
              Event.updateWriteUnits tableName 25] := by
          simp only [IngestRoutine, hf]
          rfl
        rw [hrun] at hp
        cases hp
      | some data =>
        obtain ⟨batch⟩ := data
        cases hq : makechan w.chanMemory batch.length with
        | none =>
          rw [IngestRoutine_of_make_panic w d tableName fuel batch hf (Or.inl hq)] at hp
          cases hp
        | some queueCap =>
          cases hb : makechan w.chanMemory (w.UpdateDynamoWriteUnits tableName 25).2 with
          | none =>
            rw [IngestRoutine_of_make_panic w d tableName fuel batch hf (Or.inr hb)] at hp
            cases hp
          | some burstCap =>
            obtain ⟨stampLog, _, hsched, _, _, _, hev⟩ :=
              IngestRoutine_ok w d tableName fuel batch queueCap burstCap hf hq hb
            have hs : scheduled (IngestRoutine w d tableName fuel).events =
                (batch.take (fuel * burstCap)).map (fun r => (r, (ingestTimeVal w).1)) := by
              rw [hev, scheduled_append, scheduled_append, scheduled_append, hsched,
                drainLoop_scheduled]
              split <;> simp [scheduled]
            rw [hs] at hp
            obtain ⟨r, _, hr⟩ := List.mem_map.mp hp
            rw [← hr]
  refine ⟨hdate, ?_⟩
  rw [putCalls_putRecord, hdate]
  rfl

/-- The witness of C5: the task of record B in the run over A, B, C. -/
theorem IngestRoutine_shared_date_witness :
    (sampleB, (20240115 : Int)).2 = (ingestTimeVal (sampleWorld 2)).1 ∧
      (putCalls (putRecord sampleIngestor (sampleB, (20240115 : Int)).1
          (sampleB, (20240115 : Int)).2)).map Prod.snd =
        [[("Name", AttrValue.str (sampleB, (20240115 : Int)).1.Name),
          ("Code", AttrValue.str (sampleB, (20240115 : Int)).1.Code),
          ("Shorts", AttrValue.num (sampleB, (20240115 : Int)).1.Shorts),
          ("Total", AttrValue.num (sampleB, (20240115 : Int)).1.Total),
          ("Percent", AttrValue.num (sampleB, (20240115 : Int)).1.Percent),
          ("Industry", AttrValue.str (sampleB, (20240115 : Int)).1.Industry),
          ("Date", AttrValue.int (ingestTimeVal (sampleWorld 2)).1)]] :=
  IngestRoutine_shared_date (sampleWorld 2) sampleIngestor "testShorts" 2
    (sampleB, 20240115) (by decide)

/-- C6 fails on the code: a run on the table "prodShorts" raises and restores
the write capacity of "prodShorts", while each of its three write tasks calls
`PutDynamoDBItems` on the table "testShorts". -/
theorem IngestRoutine_writes_to_fixed_table :
    capacityCalls (IngestRoutine (sampleWorld 2) sampleIngestor "prodShorts" 2).events =
        [("prodShorts", 25), ("prodShorts", 5)] ∧
      (writeCalls sampleIngestor
        (IngestRoutine (sampleWorld 2) sampleIngestor "prodShorts" 2).events).map Prod.fst =
        ["testShorts", "testShorts", "testShorts"] := by
  constructor <;> decide

/-- C7 fails on the code: started at 2024-01-15T23:30:00Z in a zone eleven
hours east of UTC, the run fetches the key of the local day 20240116, while the
UTC day of that instant is 20240115, which is also the date stamp it writes. -/
theorem IngestRoutine_key_uses_local_day :
    (IngestRoutine (sampleWorld 2) sampleIngestor "testShorts" 2).events.head? =
        some (Event.fetchJSON "shortedappjmk" "testShortedData/20240116.json") ∧
      (sampleWorld 2).nowFetch.UTC.Format20060102 = "20240115" ∧
      (scheduled (IngestRoutine (sampleWorld 2) sampleIngestor "testShorts" 2).events).map
        Prod.snd = [20240115, 20240115, 20240115] := by
  refine ⟨by decide, by decide, by decide⟩

/-! ### `WithDynamoDBGetLatest` -/

/-- C8 fails on the code: when the HEAD request succeeds and both dates parse,
the function fetches the url and writes its Last-Modified time exactly when
that time is strictly earlier than the recorded one; when the recorded date is
stale (strictly earlier than the url's Last-Modified time) it makes no GET and
no write and returns (nil, nil). -/
theorem WithDynamoDBGetLatest_compares_backwards {ρ : Type} (c : LatestDeps ρ) (url key : String)
    (resp : ρ) (lastModifiedTime dynamoLastModifiedTime : Time) (dynamoLastModified : String)
    (hhead : c.Head url = .ok resp)
    (hparse : c.ParseRFC1123 (c.LastModifiedHeader resp) = .ok lastModifiedTime)
    (hfetch : c.FetchDynamoDBLastModified "lastUpdate" key = .ok dynamoLastModified)
    (hdynamo : c.ParseRFC3339 dynamoLastModified = .ok dynamoLastModifiedTime) :
    (dynamoLastModifiedTime.unix < lastModifiedTime.unix →
        (WithDynamoDBGetLatest c url key).events =
          [HttpEvent.head url, HttpEvent.fetchLastModified "lastUpdate" key] ∧
        (WithDynamoDBGetLatest c url key).resp = none ∧
        (WithDynamoDBGetLatest c url key).err = none) ∧
      ((WithDynamoDBGetLatest c url key).events =
          [HttpEvent.head url, HttpEvent.fetchLastModified "lastUpdate" key,
            HttpEvent.putLastModified "lastUpdate" key (c.FormatRFC3339 lastModifiedTime),
            HttpEvent.get url] ↔
        lastModifiedTime.unix < dynamoLastModifiedTime.unix) := by
  by_cases hlt : lastModifiedTime.unix < dynamoLastModifiedTime.unix
  · have hrun : (WithDynamoDBGetLatest c url key).events =
        [HttpEvent.head url, HttpEvent.fetchLastModified "lastUpdate" key,
          HttpEvent.putLastModified "lastUpdate" key (c.FormatRFC3339 lastModifiedTime),
          HttpEvent.get url] := by
      simp [WithDynamoDBGetLatest, hhead, hparse, hfetch, hdynamo, Time.UTC, Time.Unix, hlt]
    exact ⟨fun h => absurd h (by omega), ⟨fun _ => hlt, fun _ => hrun⟩⟩
  · have hrun : WithDynamoDBGetLatest c url key =
        ⟨none, none, [HttpEvent.head url, HttpEvent.fetchLastModified "lastUpdate" key]⟩ := by
      simp [WithDynamoDBGetLatest, hhead, hparse, hfetch, hdynamo, Time.UTC, Time.Unix, hlt]
    rw [hrun]
    exact ⟨fun _ => ⟨rfl, rfl, rfl⟩, ⟨fun h => by simp at h, fun h => absurd h hlt⟩⟩

/-- The witness of C8: the url was modified at second 200, the table records
second 100; the stale record is left alone. -/
theorem WithDynamoDBGetLatest_compares_backwards_witness :
    (WithDynamoDBGetLatest (sampleLatestDeps 200 100) "https://example.org/data.csv"
        "shorts").events =
        [HttpEvent.head "https://example.org/data.csv",
          HttpEvent.fetchLastModified "lastUpdate" "shorts"] ∧
      (WithDynamoDBGetLatest (sampleLatestDeps 200 100) "https://example.org/data.csv"
        "shorts").resp = none ∧
      (WithDynamoDBGetLatest (sampleLatestDeps 200 100) "https://example.org/data.csv"
        "shorts").err = none :=
  (WithDynamoDBGetLatest_compares_backwards (sampleLatestDeps 200 100)
    "https://example.org/data.csv" "shorts" "HEAD https://example.org/data.csv"
    { unix := 200, offset := 0 } { unix := 100, offset := 0 } "recorded date"
    rfl rfl rfl rfl).1 (by decide)

/-! ### `PutKinesisRecords` -/

theorem kinesisLoop_all_ok {α : Type} (Marshal : α → Except String Bytes)
    (partitionKeys : List String) (blobData : List α) (i : Nat)
    (streamRecord : PutRecordsRequestEntry) (recordsList : List EntryAddr)
    (hok : ∀ b ∈ blobData, ∃ bytes, Marshal b = .ok bytes)
    (hlen : i + blobData.length ≤ partitionKeys.length) :
    ∃ final, kinesisLoop Marshal partitionKeys i blobData streamRecord recordsList =
        some (.ok (final, recordsList ++ List.replicate blobData.length EntryAddr.streamRecord)) ∧
      (blobData = [] → final = streamRecord) ∧
      (∀ last, blobData.getLast? = some last →
        ∃ bytes pk, Marshal last = .ok bytes ∧ partitionKeys[i + blobData.length - 1]? = some pk ∧
          final = { Data := bytes, PartitionKey := some pk }) := by
  induction blobData generalizing i streamRecord recordsList with
  | nil => exact ⟨streamRecord, by simp [kinesisLoop], fun _ => rfl, fun _ h => by simp at h⟩
  | cons record rest ih =>
    obtain ⟨bytes, hbytes⟩ := hok record (List.mem_cons_self _ _)
    have hi : i < partitionKeys.length := by simp at hlen; omega
    obtain ⟨final, hrun, hnil, hlast⟩ := ih (i + 1)
      { Data := bytes, PartitionKey := some (partitionKeys.get ⟨i, hi⟩) }
      (recordsList ++ [EntryAddr.streamRecord])
      (fun b hb => hok b (List.mem_cons_of_mem _ hb)) (by simp at hlen ⊢; omega)
    refine ⟨final, ?_, fun h => by simp at h, ?_⟩
    · simp only [kinesisLoop, hbytes, List.getElem?_eq_getElem hi]
      rw [show partitionKeys[i] = partitionKeys.get ⟨i, hi⟩ from rfl, hrun]
      simp [List.replicate_succ]
    · intro last hl
      cases rest with
      | nil =>
        simp at hl
        subst hl
        refine ⟨bytes, partitionKeys.get ⟨i, hi⟩, hbytes, ?_, hnil rfl⟩
        simp [List.getElem?_eq_getElem hi]
      | cons r2 rest2 =>
        rw [List.getLast?_cons_cons] at hl
        obtain ⟨b2, pk, h1, h2, h3⟩ := hlast last hl
        refine ⟨b2, pk, h1, ?_, h3⟩
        rw [← h2]
        congr 1
        simp only [List.length_cons]
        omega

/-- C9 fails on the code: when every value marshals and there are as many
partition keys as values, the request sent has one entry for each value, and
every entry is the same one: the JSON of the last value with the last
partition key. -/
theorem PutKinesisRecords_repeats_last_entry {α : Type} (Marshal : α → Except String Bytes)
    (PutRecords : PutRecordsInput → Option String) (stream : String)
    (blobData : List α) (partitionKeys : List String)
    (last : α) (lastBytes : Bytes) (lastKey : String)
    (hlen : partitionKeys.length = blobData.length)
    (hok : ∀ b ∈ blobData, ∃ bytes, Marshal b = .ok bytes)
    (hlast : blobData.getLast? = some last) (hbytes : Marshal last = .ok lastBytes)
    (hkey : partitionKeys.getLast? = some lastKey) :
    PutKinesisRecords Marshal PutRecords stream blobData partitionKeys =
      KinesisResult.returned
        (PutRecords
          { Records := List.replicate blobData.length
              { Data := lastBytes, PartitionKey := some lastKey }
            StreamName := stream })
        (some
          { Records := List.replicate blobData.length
              { Data := lastBytes, PartitionKey := some lastKey }
            StreamName := stream }) := by
  obtain ⟨final, hrun, _, hfinal⟩ := kinesisLoop_all_ok Marshal partitionKeys blobData 0
    { Data := [], PartitionKey := none } [] hok (by omega)
  obtain ⟨bytes, pk, h1, h2, h3⟩ := hfinal last hlast
  rw [hbytes] at h1
  cases h1
  have hpk : pk = lastKey := by
    rw [List.getLast?_eq_getElem?, hlen] at hkey
    rw [Nat.zero_add, hkey] at h2
    exact (Option.some.inj h2).symm
  subst hpk
  simp only [PutKinesisRecords, hrun, List.nil_append, List.map_replicate, h3]

/-- The witness of C9: the values 1 and 2 with the keys "a" and "b"; both
entries sent carry the digit 2 and the key "b". -/
theorem PutKinesisRecords_repeats_last_entry_witness :
    PutKinesisRecords sampleMarshal (fun _ => none) "shorts-stream" [1, 2] ["a", "b"] =
      KinesisResult.returned none
        (some
          { Records := [{ Data := [50], PartitionKey := some "b" },
              { Data := [50], PartitionKey := some "b" }]
            StreamName := "shorts-stream" }) :=
  PutKinesisRecords_repeats_last_entry sampleMarshal (fun _ => none) "shorts-stream" [1, 2]
    ["a", "b"] 2 [50] "b" rfl (fun b _ => ⟨[UInt8.ofNat (48 + b)], rfl⟩) rfl rfl rfl

/-! ### `FetchTimeSeries` -/

theorem timeSeriesLoop_eq {φ : Type} (ParseFloat : String → φ × Option String)
    (items : List Item) (timeSeries : List (DatePercent φ))
    (hitems : ∀ it ∈ items, ∃ dateN percentN,
      it.lookup "Date" = some dateN ∧ it.lookup "Percent" = some percentN) :
    timeSeriesLoop ParseFloat items timeSeries =
      some (timeSeries ++ items.filterMap (fun it =>
        match it.lookup "Date", it.lookup "Percent" with
        | some dateN, some percentN =>
          if (Atoi dateN).2.isSome then none
          else some { Date := (Atoi dateN).1, Percent := (ParseFloat percentN).1 }
        | _, _ => none)) := by
  induction items generalizing timeSeries with
  | nil => simp [timeSeriesLoop]
  | cons it rest ih =>
    obtain ⟨dateN, percentN, hd, hp⟩ := hitems it (List.mem_cons_self _ _)
    have hrest := fun ts => ih ts (fun x hx => hitems x (List.mem_cons_of_mem _ hx))
    by_cases herr : (Atoi dateN).2.isSome
    · simp [timeSeriesLoop, hd, hp, herr, hrest]
    · simp [timeSeriesLoop, hd, hp, herr, hrest]

/-- C10 fails on the code: for a period other than Latest and items that each
have a Date and a Percent, the result holds, in query order, one element for
every item whose Date parses as an integer, whether or not its Percent parses;
the Percent of the element is whatever value `ParseFloat` returned, error or
not. Only a Date that fails to parse makes the loop skip the item. -/
theorem FetchTimeSeries_keeps_unparsed_percent {π β φ : Type} [DecidableEq π]
    (c : SeriesDeps π β φ) (tableName code : String) (period : π)
    (hperiod : period ≠ c.Latest)
    (hitems : ∀ it ∈ (c.TimeRangeQueryDynamoDB
        { TableName := tableName, PartitionName := "Code", PartitionKey := code,
          SortName := "Date", Low := (c.GetSearchWindow period).1,
          High := (c.GetSearchWindow period).2 }).1,
      ∃ dateN percentN, it.lookup "Date" = some dateN ∧ it.lookup "Percent" = some percentN) :
    FetchTimeSeries c tableName code period =
      some (code, (c.TimeRangeQueryDynamoDB
        { TableName := tableName, PartitionName := "Code", PartitionKey := code,
          SortName := "Date", Low := (c.GetSearchWindow period).1,
          High := (c.GetSearchWindow period).2 }).1.filterMap (fun it =>
        match it.lookup "Date", it.lookup "Percent" with
        | some dateN, some percentN =>
          if (Atoi dateN).2.isSome then none
          else some { Date := (Atoi dateN).1, Percent := (c.ParseFloat percentN).1 }
        | _, _ => none)) := by
  simp only [FetchTimeSeries, if_neg hperiod, timeSeriesLoop_eq c.ParseFloat _ [] hitems,
    List.nil_append]

/-- The witness of C10: of three items, the one whose Percent "abc" does not
parse is kept with the value 0 that `ParseFloat` returned beside its error; the
one whose Date does not parse is skipped. -/
theorem FetchTimeSeries_keeps_unparsed_percent_witness :
    FetchTimeSeries sampleSeriesDeps "testShorts" "AAA" 7 =
      some ("AAA", [{ Date := 20240115, Percent := 0 }, { Date := 20240116, Percent := 1 }]) :=
  (FetchTimeSeries_keeps_unparsed_percent sampleSeriesDeps "testShorts" "AAA" 7 (by decide)
    (by
      intro it hit
      simp only [sampleSeriesDeps, List.mem_cons, List.mem_singleton, List.not_mem_nil,
        or_false] at hit
      rcases hit with rfl | rfl | rfl <;> exact ⟨_, _, rfl, rfl⟩)).trans (by decide)

end Shorted
